import Mathlib

/-!
Verification development for the Portfolio-Management-Server repository.

The core state is a per-owner portfolio document holding a symbol→quantity
map (`stocks`), a scalar cost basis (`cost`), and a date→USD-value map
(`history`).  Firestore documents are modelled as association lists with the
store's field-level primitives (`Increment`, `DELETE_FIELD`, absolute set)
made explicit.  Calendar dates (`YYYY-MM-DD` strings in the source) are
modelled as day ordinals in `ℤ`: string↔date parsing is a bijection on valid
dates, `datetime` comparison corresponds to `≤` on ordinals, and
`timedelta(days = k)` corresponds to subtraction of `k`.  Python numbers are
modelled as `ℚ`.  External calls (quote fetch, FX fetch) are passed in as
explicit parameters; `none` / `Except.error` stands for a failed call.
-/

/-- Lookup in an association map: value of the first entry with the given
key, `none` when absent (Python `k in d` / `d[k]`). -/
def mget {κ : Type} [DecidableEq κ] : List (κ × ℚ) → κ → Option ℚ
  | [], _ => none
  | (k', v) :: rest, k => if k' = k then some v else mget rest k

/-- Lookup with a default (Python `d.get(k, d0)`). -/
def mgetD {κ : Type} [DecidableEq κ] (m : List (κ × ℚ)) (k : κ) (d0 : ℚ) : ℚ :=
  (mget m k).getD d0

/-- Firestore `Increment(v)` on field `k`: adds `v` to the existing value,
creating the field with value `v` when absent. -/
def minc {κ : Type} [DecidableEq κ] : List (κ × ℚ) → κ → ℚ → List (κ × ℚ)
  | [], k, v => [(k, v)]
  | (k', w) :: rest, k, v =>
    if k' = k then (k', w + v) :: rest else (k', w) :: minc rest k v

/-- Firestore absolute set of field `k` to `v` (plain `update` value). -/
def mset {κ : Type} [DecidableEq κ] : List (κ × ℚ) → κ → ℚ → List (κ × ℚ)
  | [], k, v => [(k, v)]
  | (k', w) :: rest, k, v =>
    if k' = k then (k', v) :: rest else (k', w) :: mset rest k v

/-- Firestore `DELETE_FIELD` on field `k`. -/
def merase {κ : Type} [DecidableEq κ] : List (κ × ℚ) → κ → List (κ × ℚ)
  | [], _ => []
  | (k', w) :: rest, k => if k' = k then rest else (k', w) :: merase rest k

/-- Sum of all values (Python `sum(d.values())`). -/
def msum {κ : Type} (m : List (κ × ℚ)) : ℚ :=
  (m.map Prod.snd).sum

/-- Largest key of a date→value map (Python
`max(history.keys(), key = parse_date)`), `none` on an empty map. -/
def maxKey : List (ℤ × ℚ) → Option ℤ
  | [] => none
  | (k, _) :: rest =>
    match maxKey rest with
    | none => some k
    | some k' => some (max k k')

/-- Value stored at the most recent date of the history, `0` when empty. -/
def lastValue (m : List (ℤ × ℚ)) : ℚ :=
  match maxKey m with
  | none => 0
  | some k => mgetD m k 0

/-- The `yesterdayValueNotAdded` carry of `buyStock` / `sellStock`
(src/app.py lines 509-513 and 599-609): the most recent prior history value
when today has no entry yet and the history is nonempty, else `0`. -/
def carryValue (history : List (ℤ × ℚ)) (today : ℤ) : ℚ :=
  if mget history today = none ∧ history ≠ [] then lastValue history else 0

/-- The per-owner Firestore portfolio document. -/
structure PortfolioRecord where
  stocks : List (String × ℚ)
  cost : ℚ
  history : List (ℤ × ℚ)
deriving DecidableEq, Repr

/-- The document written when `buyStock` initializes a missing portfolio
(src/app.py lines 565-569). -/
def emptyRecord : PortfolioRecord :=
  { stocks := [], cost := 0, history := [] }

/-- The route `buyStock` (src/app.py lines 547-626): `store` is the owner's document
(`none` when absent), `symbol` / `quantity` the parsed JSON body fields
(`none` when missing), `quote` the price of the first quote result (`none`
when the quote lookup returned nothing).  Returns the stored document after
the request together with the HTTP-level result.  Note the record is
initialized before the body is validated. -/
def buyStock (store : Option PortfolioRecord) (symbol : Option String)
    (quantity : Option ℚ) (quote : Option ℚ) (today : ℤ) :
    Option PortfolioRecord × Except String Unit :=
  let docData := store.getD emptyRecord
  if symbol = none ∨ symbol = some "" ∨ quantity = none ∨ quantity = some 0 then
    (some docData, Except.error "Missing symbol or quantity")
  else if quantity.getD 0 ≤ 0 then
    (some docData, Except.error "Quantity must be greater than 0")
  else
    match quote with
    | none => (some docData, Except.error "Wrong stock")
    | some price =>
      (some { stocks := minc docData.stocks (symbol.getD "") (quantity.getD 0),
              cost := docData.cost + price * quantity.getD 0,
              history := minc docData.history today
                (price * quantity.getD 0 + carryValue docData.history today) },
       Except.ok ())

/-- The route `sellStock` (src/app.py lines 469-545): parameters as in `buyStock`.
The three success branches mirror the source: full sale of the last
remaining holding (absolute reset), full sale of a non-last holding
(delete + decrement), and partial sale (decrement only). -/
def sellStock (store : Option PortfolioRecord) (symbol : Option String)
    (quantity : Option ℚ) (quote : Option ℚ) (today : ℤ) :
    Option PortfolioRecord × Except String Unit :=
  match store with
  | none => (none, Except.error "Portfolio not found. Please buy stocks first.")
  | some docData =>
    if symbol = none ∨ symbol = some "" ∨ quantity = none ∨ quantity = some 0
        ∨ quantity.getD 0 ≤ 0 then
      (some docData, Except.error "Missing or invalid symbol or quantity")
    else if mgetD docData.stocks (symbol.getD "") 0 < quantity.getD 0 then
      (some docData, Except.error "Not enough stocks to sell")
    else
      match quote with
      | none => (some docData, Except.error "Invalid stock symbol")
      | some price =>
        if mgetD docData.stocks (symbol.getD "") 0 = quantity.getD 0 then
          if msum docData.stocks - quantity.getD 0 = 0 then
            (some { stocks := merase docData.stocks (symbol.getD ""),
                    cost := 0,
                    history := mset docData.history today 0 },
             Except.ok ())
          else
            (some { stocks := merase docData.stocks (symbol.getD ""),
                    cost := docData.cost + price * quantity.getD 0 * (-1),
                    history := minc docData.history today
                      (price * quantity.getD 0 * (-1) +
                        carryValue docData.history today) },
             Except.ok ())
        else
          (some { stocks := minc docData.stocks (symbol.getD "")
                    (-(quantity.getD 0)),
                  cost := docData.cost + price * quantity.getD 0 * (-1),
                  history := minc docData.history today
                    (price * quantity.getD 0 * (-1) +
                      carryValue docData.history today) },
           Except.ok ())

/-- Portfolio states reachable from an absent document by any sequence of
buy and sell requests (with arbitrary request bodies, quote results and
days). -/
inductive Reachable : Option PortfolioRecord → Prop
  | init : Reachable none
  | buy {store : Option PortfolioRecord} (symbol : Option String)
      (quantity quote : Option ℚ) (today : ℤ) (h : Reachable store) :
      Reachable (buyStock store symbol quantity quote today).1
  | sell {store : Option PortfolioRecord} (symbol : Option String)
      (quantity quote : Option ℚ) (today : ℤ) (h : Reachable store) :
      Reachable (sellStock store symbol quantity quote today).1

/-- Start date of the history-chart range filter (src/app.py lines 239-246):
`request.args.get("range", "1w")` means an absent parameter defaults to
`"1w"`; `none` here is "no filtering". -/
def startDate (rangeFilter : String) (today : ℤ) : Option ℤ :=
  if rangeFilter = "1w" then some (today - 7)
  else if rangeFilter = "1mo" then some (today - 30)
  else if rangeFilter = "3mo" then some (today - 90)
  else none

/-- The route `getPortfolioChart` (src/app.py lines 219-259), USD reference-currency
path: returns the (possibly range-filtered) value history.  The
non-USD path converts each retained value and does not change which date
keys are kept. -/
def getPortfolioChart (doc : Option PortfolioRecord) (rangeParam : Option String)
    (today : ℤ) : List (ℤ × ℚ) :=
  match doc with
  | none => []
  | some d =>
    match startDate (rangeParam.getD "1w") today with
    | none => d.history
    | some start => d.history.filter (fun e => start ≤ e.1)

/-- The helper `getPortfolioStocksValuesUsingQuantity` (src/utils.py lines 136-144):
`quotes` is the list of (symbol, price) pairs returned by the quote
gateway; `s['price'] * stocksAndQuantities[s['symbol']]` raises `KeyError`
when a quoted symbol is not a held symbol. -/
def getPortfolioStocksValuesUsingQuantity (quotes : List (String × ℚ))
    (stocksAndQuantities : List (String × ℚ)) :
    Except String (List (String × ℚ)) :=
  quotes.mapM (fun sq =>
    match mget stocksAndQuantities sq.1 with
    | some qty => Except.ok (sq.1, sq.2 * qty)
    | none => Except.error "KeyError")

/-- Python division, which raises `ZeroDivisionError` on a zero divisor. -/
def pydiv (a b : ℚ) : Except String ℚ :=
  if b = 0 then Except.error "ZeroDivisionError" else Except.ok (a / b)

/-- The route `getPortfolioStocksDistribution` (src/app.py lines 344-364): each held
symbol's value as a percentage of today's history total
(`d['value'] / valuePortfolio * 100`); `Except.error` models an uncaught
Python exception, which the surrounding framework maps to an HTTP 500
error response. -/
def getPortfolioStocksDistribution (doc : Option PortfolioRecord)
    (quotes : List (String × ℚ)) (today : ℤ) :
    Except String (List (String × ℚ)) :=
  match doc with
  | none => Except.ok []
  | some d => do
    let data ← getPortfolioStocksValuesUsingQuantity quotes d.stocks
    let total := mgetD d.history today 0
    data.mapM (fun sv => do
      let frac ← pydiv sv.2 total
      pure (sv.1, frac * 100))

/-- The table `FALLBACK_RATES` (src/utils.py lines 26-47): hardcoded static
USD-based exchange-rate table. -/
def FALLBACK_RATES : List (String × ℚ) :=
  [("EUR", 0.92), ("GBP", 0.79), ("JPY", 149.50), ("CAD", 1.36),
   ("AUD", 1.52), ("CHF", 0.88), ("CNY", 7.24), ("INR", 83.12),
   ("MXN", 17.08), ("BRL", 4.97), ("ZAR", 18.65), ("KRW", 1319.50),
   ("SGD", 1.34), ("NZD", 1.65), ("SEK", 10.37), ("NOK", 10.68),
   ("DKK", 6.87), ("PLN", 3.95), ("THB", 34.82), ("MYR", 4.47)]

/-- Outcome of the two FX-gateway calls made by `get_exchange_rates`:
`Except.error` models an exception anywhere in the `try` block, and the
`Bool` models whether the `currencies` response was truthy with a `data`
key; the list is the `data` of the `latest` response. -/
abbrev FxFetch : Type := Except Unit (Bool × List (String × ℚ))

/-- Fetch outcomes on which `get_exchange_rates` takes a fallback path:
an exception, an invalid `currencies` response, or empty rates. -/
def fxFailed : FxFetch → Bool
  | Except.error _ => true
  | Except.ok (valid, rates) => !valid || rates.isEmpty

/-- The function `get_exchange_rates` (src/utils.py lines 146-171) as a function of the
fetch outcome: live rates when the fetch fully succeeds with nonempty
data, the static fallback table otherwise. -/
def get_exchange_rates (ext : FxFetch) : List (String × ℚ) :=
  match ext with
  | Except.error _ => FALLBACK_RATES
  | Except.ok (valid, rates) =>
    if valid then (if rates = [] then FALLBACK_RATES else rates)
    else FALLBACK_RATES

/-- Currency-code normalization shared by `get_exchange_rate` and
`convert_currency` (src/utils.py lines 177-184 and 210-216): `none` /
empty / whitespace-only codes default to USD, others are trimmed and
uppercased. -/
def normCurrency (c : Option String) : String :=
  match c with
  | none => "USD"
  | some s => if s.trim = "" then "USD" else s.trim.toUpper

/-- Round half to even at integer precision, the rounding Python's
built-in `round` applies. -/
def roundHalfEven (x : ℚ) : ℤ :=
  if x - Int.floor x < 1 / 2 then Int.floor x
  else if x - Int.floor x > 1 / 2 then Int.floor x + 1
  else if Int.floor x % 2 = 0 then Int.floor x else Int.floor x + 1

/-- Python `round(x, 2)`. -/
def round2 (x : ℚ) : ℚ :=
  (roundHalfEven (x * 100) : ℚ) / 100

/-- The function `get_exchange_rate` (src/utils.py lines 173-203) as a function of the
FX fetch outcome and already-string currency codes. -/
def get_exchange_rate (ext : FxFetch) (from_c to_c : String) : ℚ :=
  let toc := if to_c.trim = "" then "USD" else to_c.trim.toUpper
  let fromc := if from_c.trim = "" then "USD" else from_c.trim.toUpper
  if fromc = toc then 1
  else
    let rates := get_exchange_rates ext
    match mget rates toc with
    | none => (mget FALLBACK_RATES toc).getD 1
    | some r => r

/-- The function `convert_currency` (src/utils.py lines 205-226) as a function of the
FX fetch outcome: short-circuits to `round2 amount` when the normalized
codes coincide or the amount is zero, otherwise multiplies by the looked-up
rate and rounds. -/
def convert_currency (ext : FxFetch) (amount : ℚ)
    (from_c to_c : Option String) : ℚ :=
  let toc := normCurrency to_c
  let fromc := normCurrency from_c
  if fromc = toc ∨ amount = 0 then round2 amount
  else round2 (amount * get_exchange_rate ext fromc toc)

lemma mget_minc_self {κ : Type} [DecidableEq κ] (m : List (κ × ℚ)) (k : κ)
    (v : ℚ) : mget (minc m k v) k = some (mgetD m k 0 + v) := by
  induction m with
  | nil => simp [mget, minc, mgetD]
  | cons e rest ih =>
    obtain ⟨a, w⟩ := e
    by_cases ha : a = k
    · subst ha; simp [mget, minc, mgetD]
    · simp [mget, minc, mgetD, ha, ih]

lemma mget_minc_ne {κ : Type} [DecidableEq κ] (m : List (κ × ℚ)) (k k' : κ)
    (v : ℚ) (h : k' ≠ k) : mget (minc m k v) k' = mget m k' := by
  induction m with
  | nil => simp [mget, minc, h.symm]
  | cons e rest ih =>
    obtain ⟨a, w⟩ := e
    by_cases ha : a = k
    · subst ha; simp [mget, minc, h.symm]
    · simp [mget, minc, ha, ih]

lemma mget_mset_ne {κ : Type} [DecidableEq κ] (m : List (κ × ℚ)) (k k' : κ)
    (v : ℚ) (h : k' ≠ k) : mget (mset m k v) k' = mget m k' := by
  induction m with
  | nil => simp [mget, mset, h.symm]
  | cons e rest ih =>
    obtain ⟨a, w⟩ := e
    by_cases ha : a = k
    · subst ha; simp [mget, mset, h.symm]
    · simp [mget, mset, ha, ih]

lemma mget_merase_ne {κ : Type} [DecidableEq κ] (m : List (κ × ℚ)) (k k' : κ)
    (h : k' ≠ k) : mget (merase m k) k' = mget m k' := by
  induction m with
  | nil => simp [merase]
  | cons e rest ih =>
    obtain ⟨a, w⟩ := e
    by_cases ha : a = k
    · subst ha; simp [mget, merase, h.symm]
    · simp [mget, merase, ha, ih]

lemma err_ne_ok (e : String) :
    (Except.error e : Except String Unit) ≠ Except.ok () := fun h =>
  Except.noConfusion h

/-- Claim C8: for every amount and currency codes, if the normalized codes
coincide (trimming/uppercasing, empty or absent defaulting to USD) or the
amount is 0, `convert_currency` returns the amount rounded to 2 decimal
places, independently of the FX fetch outcome — in particular also when the
rate service is unreachable. -/
theorem convert_currency_shortcircuit (ext : FxFetch) (amount : ℚ)
    (from_c to_c : Option String)
    (h : normCurrency from_c = normCurrency to_c ∨ amount = 0) :
    convert_currency ext amount from_c to_c = round2 amount := by
  simp only [convert_currency]
  rw [if_pos h]

theorem convert_currency_shortcircuit_witness :
    (normCurrency none = normCurrency none ∨ (5 : ℚ) = 0) ∧
    convert_currency (Except.error ()) 5 none none = round2 5 :=
  ⟨Or.inl rfl,
   convert_currency_shortcircuit (Except.error ()) 5 none none (Or.inl rfl)⟩

/-- Claim C9: whenever the FX fetch fails or returns an empty or malformed
response, `get_exchange_rates` returns exactly the hardcoded static fallback
table of 20 currencies, and any two such failing calls return identical
results. -/
theorem get_exchange_rates_fallback (ext : FxFetch)
    (h : fxFailed ext = true) :
    get_exchange_rates ext = FALLBACK_RATES ∧
    FALLBACK_RATES.length = 20 ∧
    ∀ ext', fxFailed ext' = true →
      get_exchange_rates ext = get_exchange_rates ext' := by
  have key : ∀ e : FxFetch, fxFailed e = true →
      get_exchange_rates e = FALLBACK_RATES := by
    intro e he
    match e with
    | Except.error _ => rfl
    | Except.ok (valid, rates) =>
      cases valid with
      | false => rfl
      | true =>
        simp only [fxFailed, Bool.not_true, Bool.false_or] at he
        simp [get_exchange_rates, List.isEmpty_iff.mp he]
  exact ⟨key ext h, rfl, fun ext' h' => by rw [key ext h, key ext' h']⟩

theorem get_exchange_rates_fallback_witness :
    fxFailed (Except.error ()) = true ∧
    get_exchange_rates (Except.error ()) = FALLBACK_RATES :=
  ⟨rfl, (get_exchange_rates_fallback (Except.error ()) rfl).1⟩

/-- Claim C7: refuted as a code bug.  On an owner whose portfolio holds
AAPL with a live quote but whose value history has no entry for today,
the stocks-distribution operation divides by a zero portfolio total and
raises `ZeroDivisionError` (surfaced to the caller as an HTTP 500 error)
instead of returning a best-effort result. -/
theorem getPortfolioStocksDistribution_zero_total_raises :
    getPortfolioStocksDistribution
      (some { stocks := [("AAPL", 10)], cost := 1500,
              history := [(0, 1600)] })
      [("AAPL", 170)] 1 = Except.error "ZeroDivisionError" := rfl

/-- Claim C3: a valid sell of the entire quantity of a symbol that is also
the last remaining holding (the total quantity across all symbols equals
the sold quantity) deletes the symbol, resets `cost` to 0, and writes
`history[today] = 0` as an absolute set, not an increment. -/
theorem sellStock_last_holding (rec : PortfolioRecord) (s : String)
    (q p : ℚ) (today : ℤ) (hs : s ≠ "") (hq : 0 < q)
    (hfull : mgetD rec.stocks s 0 = q) (hlast : msum rec.stocks = q) :
    sellStock (some rec) (some s) (some q) (some p) today =
      (some { stocks := merase rec.stocks s, cost := 0,
              history := mset rec.history today 0 }, Except.ok ()) := by
  simp [sellStock, hs, hq.ne', not_le.mpr hq, hfull, hlast]

theorem sellStock_last_holding_witness :
    ("AAPL" : String) ≠ "" ∧ (0 : ℚ) < 10 ∧
    mgetD [(("AAPL" : String), (10 : ℚ))] "AAPL" 0 = 10 ∧
    msum [(("AAPL" : String), (10 : ℚ))] = 10 ∧
    sellStock
      (some { stocks := [("AAPL", 10)], cost := 1500,
              history := [(0, 1600)] })
      (some "AAPL") (some 10) (some 180) 1 =
      (some { stocks := merase [(("AAPL" : String), (10 : ℚ))] "AAPL",
              cost := 0, history := mset [(0, 1600)] 1 0 },
        Except.ok ()) :=
  ⟨by decide, by norm_num, by decide, by norm_num [msum],
   sellStock_last_holding
     { stocks := [("AAPL", 10)], cost := 1500, history := [(0, 1600)] }
     "AAPL" 10 180 1 (by decide) (by norm_num) (by decide)
     (by norm_num [msum])⟩

/-- Claim C5: a sell request for a positive quantity exceeding the stored
holdings of the requested symbol returns the insufficient-holdings error
and leaves the portfolio record completely unchanged, for every quote
outcome. -/
theorem sellStock_insufficient (rec : PortfolioRecord) (s : String) (q : ℚ)
    (quote : Option ℚ) (today : ℤ) (hs : s ≠ "") (hq : 0 < q)
    (hins : mgetD rec.stocks s 0 < q) :
    sellStock (some rec) (some s) (some q) quote today =
      (some rec, Except.error "Not enough stocks to sell") := by
  simp [sellStock, hs, hq.ne', not_le.mpr hq, hins]

theorem sellStock_insufficient_witness :
    ("AAPL" : String) ≠ "" ∧ (0 : ℚ) < 11 ∧
    mgetD [(("AAPL" : String), (10 : ℚ))] "AAPL" 0 < 11 ∧
    sellStock
      (some { stocks := [("AAPL", 10)], cost := 1500,
              history := [(0, 1600)] })
      (some "AAPL") (some 11) (some 180) 1 =
      (some { stocks := [("AAPL", 10)], cost := 1500,
              history := [(0, 1600)] },
        Except.error "Not enough stocks to sell") :=
  ⟨by decide, by norm_num, by norm_num [mgetD, mget],
   sellStock_insufficient
     { stocks := [("AAPL", 10)], cost := 1500, history := [(0, 1600)] }
     "AAPL" 11 (some 180) 1 (by decide) (by norm_num)
     (by norm_num [mgetD, mget])⟩

/-- Claim C2 counterexample: a buy with quantity `-1` on an owner with no
portfolio returns the invalid-quantity error, yet the stored state is
mutated: an empty `PortfolioRecord` is created before the quantity is
validated, so the record does not exist only after a first successful
buy. -/
theorem buyStock_invalid_quantity_mutates :
    buyStock none (some "AAPL") (some (-1)) (some 100) 0 =
      (some emptyRecord, Except.error "Quantity must be greater than 0") ∧
    some emptyRecord ≠ (none : Option PortfolioRecord) := by
  refine ⟨?_, by simp⟩
  simp [buyStock, emptyRecord]

/-- Claim C2 amended: a buy with a nonempty symbol and `quantity <= 0`
returns an error (`Missing symbol or quantity` when the quantity is 0,
`Quantity must be greater than 0` when it is negative) and applies no
increment to holdings, cost or history; however, when the owner had no
portfolio record, an empty record has been created by the failed
request. -/
theorem buyStock_invalid_quantity_no_increment
    (store : Option PortfolioRecord) (s : String) (q : ℚ)
    (quote : Option ℚ) (today : ℤ) (hs : s ≠ "") (hq : q ≤ 0) :
    (buyStock store (some s) (some q) quote today).1
        = some (store.getD emptyRecord) ∧
    (q = 0 → (buyStock store (some s) (some q) quote today).2
        = Except.error "Missing symbol or quantity") ∧
    (q < 0 → (buyStock store (some s) (some q) quote today).2
        = Except.error "Quantity must be greater than 0") := by
  by_cases h0 : q = 0
  · subst h0
    exact ⟨by simp [buyStock, hs], fun _ => by simp [buyStock, hs],
           fun h => absurd h (lt_irrefl 0)⟩
  · exact ⟨by simp [buyStock, hs, h0, hq], fun h => absurd h h0,
           fun _ => by simp [buyStock, hs, h0, hq]⟩

theorem buyStock_invalid_quantity_no_increment_witness :
    ("AAPL" : String) ≠ "" ∧ (-1 : ℚ) ≤ 0 ∧
    (buyStock none (some "AAPL") (some (-1)) (some 100) 0).1
        = some emptyRecord ∧
    (buyStock none (some "AAPL") (some (-1)) (some 100) 0).2
        = Except.error "Quantity must be greater than 0" := by
  have h := buyStock_invalid_quantity_no_increment none "AAPL" (-1)
    (some 100) 0 (by decide) (by norm_num)
  exact ⟨by decide, by norm_num, h.1, h.2.2 (by norm_num)⟩

/-- Claim C1 counterexample: the state reached by buying 1 AAPL at 100,
buying 1 MSFT at 10, and fully selling the AAPL position at a live price
of 200 (all valid operations on the same day) has `cost = -90 < 0`:
`costBasis >= 0` is not an invariant, and a sell can decrease the cost
basis by more than the remaining cost basis. -/
theorem reachable_negative_cost :
    Reachable (some { stocks := [("MSFT", 1)], cost := -90,
                      history := [(0, -90)] }) ∧
    ({ stocks := [("MSFT", 1)], cost := -90, history := [(0, -90)] }
        : PortfolioRecord).cost < 0 := by
  constructor
  · have e1 : (buyStock none (some "AAPL") (some 1) (some 100) 0).1 =
        some { stocks := [("AAPL", 1)], cost := 100,
               history := [(0, 100)] } := by
      simp [buyStock, emptyRecord, carryValue, mget, minc]
      norm_num
    have e2 : (buyStock
        (some { stocks := [("AAPL", 1)], cost := 100,
                history := [(0, 100)] })
        (some "MSFT") (some 1) (some 10) 0).1 =
        some { stocks := [("AAPL", 1), ("MSFT", 1)], cost := 110,
               history := [(0, 110)] } := by
      simp [buyStock, carryValue, mget, minc]
      norm_num
    have e3 : (sellStock
        (some { stocks := [("AAPL", 1), ("MSFT", 1)], cost := 110,
                history := [(0, 110)] })
        (some "AAPL") (some 1) (some 200) 0).1 =
        some { stocks := [("MSFT", 1)], cost := -90,
               history := [(0, -90)] } := by
      simp [sellStock, carryValue, mget, mgetD, minc, merase, msum]
      norm_num
    have h1 := @Reachable.buy none (some "AAPL") (some 1)
      (some 100) 0 Reachable.init
    rw [e1] at h1
    have h2 := Reachable.buy (some "MSFT") (some 1) (some 10) 0 h1
    rw [e2] at h2
    have h3 := Reachable.sell (some "AAPL") (some 1) (some 200) 0 h2
    rw [e3] at h3
    exact h3
  · norm_num

/-- Claim C1 amended: on every successful sell, the cost basis is reset to
0 when the sale fully closes the last remaining holding, and otherwise
decreases by exactly `price * quantity` at the live sell price — not by a
proportional share of the held cost — so it can decrease by more than the
remaining cost basis and `costBasis >= 0` is not preserved. -/
theorem sellStock_cost_update (rec : PortfolioRecord) (s : String)
    (q p : ℚ) (today : ℤ) (rec' : PortfolioRecord)
    (h : sellStock (some rec) (some s) (some q) (some p) today
        = (some rec', Except.ok ())) :
    (mgetD rec.stocks s 0 = q ∧ msum rec.stocks = q → rec'.cost = 0) ∧
    (¬(mgetD rec.stocks s 0 = q ∧ msum rec.stocks = q) →
      rec'.cost = rec.cost - p * q) := by
  simp only [sellStock, Option.getD_some] at h
  split at h
  · exact (err_ne_ok _ (congrArg Prod.snd h)).elim
  · split at h
    · exact (err_ne_ok _ (congrArg Prod.snd h)).elim
    · split at h
      · rename_i hfull
        split at h
        · rename_i hlast
          have hrec := Option.some.inj (congrArg Prod.fst h)
          refine ⟨fun _ => ?_, fun hn => ?_⟩
          · rw [← hrec]
          · exact absurd ⟨hfull, sub_eq_zero.mp hlast⟩ hn
        · rename_i hlast
          have hrec := Option.some.inj (congrArg Prod.fst h)
          refine ⟨fun hc => absurd (sub_eq_zero.mpr hc.2) hlast,
                  fun _ => ?_⟩
          rw [← hrec]
          show rec.cost + p * q * (-1) = rec.cost - p * q
          ring
      · rename_i hfull
        have hrec := Option.some.inj (congrArg Prod.fst h)
        refine ⟨fun hc => absurd hc.1 hfull, fun _ => ?_⟩
        rw [← hrec]
        show rec.cost + p * q * (-1) = rec.cost - p * q
        ring

theorem sellStock_cost_update_witness :
    sellStock
      (some { stocks := [("AAPL", 10)], cost := 1500,
              history := [(0, 1600)] })
      (some "AAPL") (some 10) (some 180) 1 =
      (some { stocks := [], cost := 0, history := [(0, 1600), (1, 0)] },
        Except.ok ()) ∧
    ({ stocks := [], cost := 0, history := [(0, 1600), (1, 0)] }
        : PortfolioRecord).cost = 0 := by
  have heq : sellStock
      (some { stocks := [("AAPL", 10)], cost := 1500,
              history := [(0, 1600)] })
      (some "AAPL") (some 10) (some 180) 1 =
      (some { stocks := [], cost := 0, history := [(0, 1600), (1, 0)] },
        Except.ok ()) := by
    simp [sellStock, carryValue, mget, mgetD, minc, merase, mset, msum]
  exact ⟨heq,
    (sellStock_cost_update _ "AAPL" 10 180 1 _ heq).1
      ⟨by decide, by norm_num [msum]⟩⟩

/-- Claim C4: on a successful buy, when today has no history entry yet and
the history is nonempty with a nonzero most-recent value, today's new
entry equals that prior value plus `price * quantity`; when today already
has an entry, exactly `price * quantity` is added (carry 0). -/
theorem buyStock_history_carry (rec : PortfolioRecord) (s : String)
    (q p : ℚ) (today : ℤ) (rec' : PortfolioRecord) (hs : s ≠ "")
    (hq : 0 < q)
    (h : buyStock (some rec) (some s) (some q) (some p) today
        = (some rec', Except.ok ())) :
    (mget rec.history today = none → rec.history ≠ [] →
      lastValue rec.history ≠ 0 →
      mget rec'.history today = some (lastValue rec.history + p * q)) ∧
    (∀ w, mget rec.history today = some w →
      mget rec'.history today = some (w + p * q)) := by
  simp only [buyStock, Option.getD_some] at h
  split at h
  · rename_i hcond
    exact absurd hcond (by simp [hs, hq.ne'])
  · split at h
    · rename_i hle
      exact absurd hle (not_le.mpr hq)
    · have hrec := Option.some.inj (congrArg Prod.fst h)
      constructor
      · intro habs hne hnz
        rw [← hrec]
        show mget (minc rec.history today
          (p * q + carryValue rec.history today)) today = _
        rw [mget_minc_self, mgetD, habs, carryValue, if_pos ⟨habs, hne⟩]
        show some (Option.getD none 0 + (p * q + lastValue rec.history)) = _
        rw [Option.getD_none, zero_add, add_comm (p * q) (lastValue rec.history)]
      · intro w hw
        rw [← hrec]
        show mget (minc rec.history today
          (p * q + carryValue rec.history today)) today = _
        rw [mget_minc_self, mgetD, hw, carryValue, if_neg (by simp [hw])]
        show some (Option.getD (some w) 0 + (p * q + 0)) = _
        rw [Option.getD_some, add_zero]

theorem buyStock_history_carry_witness :
    mget [((0 : ℤ), (1600 : ℚ))] 1 = none ∧
    lastValue [((0 : ℤ), (1600 : ℚ))] ≠ 0 ∧
    buyStock
      (some { stocks := [("AAPL", 1)], cost := 100,
              history := [(0, 1600)] })
      (some "AAPL") (some 2) (some 50) 1 =
      (some { stocks := [("AAPL", 3)], cost := 200,
              history := [(0, 1600), (1, 1700)] }, Except.ok ()) ∧
    mget [((0 : ℤ), (1600 : ℚ)), (1, 1700)] 1
      = some (lastValue [((0 : ℤ), (1600 : ℚ))] + 50 * 2) := by
  have heq : buyStock
      (some { stocks := [("AAPL", 1)], cost := 100,
              history := [(0, 1600)] })
      (some "AAPL") (some 2) (some 50) 1 =
      (some { stocks := [("AAPL", 3)], cost := 200,
              history := [(0, 1600), (1, 1700)] }, Except.ok ()) := by
    simp [buyStock, carryValue, mget, minc, lastValue, maxKey, mgetD]
    norm_num
  refine ⟨by decide, by norm_num [lastValue, maxKey, mgetD, mget], heq, ?_⟩
  exact (buyStock_history_carry _ "AAPL" 2 50 1 _ (by decide) (by norm_num)
    heq).1 (by decide) (by decide)
    (by norm_num [lastValue, maxKey, mgetD, mget])

/-- Claim C6 counterexample: with the `range` parameter absent, the
history chart does not return the full history: on a history with entries
10 and 7 days old, the absent parameter defaults to `"1w"` and the
10-day-old entry is dropped. -/
theorem getPortfolioChart_absent_range_filters :
    getPortfolioChart
      (some { stocks := [], cost := 0, history := [(90, 5), (93, 7)] })
      none 100
      ≠ [((90 : ℤ), (5 : ℚ)), (93, 7)] := by
  decide

/-- Claim C6 amended: the range filter keeps exactly the history entries
whose date lies in the inclusive window ending today (`1w`: 7 days,
`1mo`: 30 days, `3mo`: 90 days) whenever all stored dates are at most
today; any other present range value returns the full unfiltered history;
an absent range parameter behaves like `1w`, not like the unfiltered
case. -/
theorem getPortfolioChart_range_filter (rec : PortfolioRecord)
    (today : ℤ) (rng : String)
    (hdates : ∀ e ∈ rec.history, e.1 ≤ today) :
    (getPortfolioChart (some rec) (some "1w") today
        = rec.history.filter
            (fun e => decide (today - 7 ≤ e.1 ∧ e.1 ≤ today))) ∧
    (getPortfolioChart (some rec) (some "1mo") today
        = rec.history.filter
            (fun e => decide (today - 30 ≤ e.1 ∧ e.1 ≤ today))) ∧
    (getPortfolioChart (some rec) (some "3mo") today
        = rec.history.filter
            (fun e => decide (today - 90 ≤ e.1 ∧ e.1 ≤ today))) ∧
    (rng ≠ "1w" → rng ≠ "1mo" → rng ≠ "3mo" →
      getPortfolioChart (some rec) (some rng) today = rec.history) ∧
    (getPortfolioChart (some rec) none today
        = getPortfolioChart (some rec) (some "1w") today) := by
  have hwin : ∀ N : ℤ,
      rec.history.filter (fun e => decide (today - N ≤ e.1))
        = rec.history.filter
            (fun e => decide (today - N ≤ e.1 ∧ e.1 ≤ today)) := by
    intro N
    refine List.filter_congr ?_
    intro e he
    simp [hdates e he]
  refine ⟨?_, ?_, ?_, ?_, rfl⟩
  · simpa [getPortfolioChart, startDate] using hwin 7
  · simpa [getPortfolioChart, startDate] using hwin 30
  · simpa [getPortfolioChart, startDate] using hwin 90
  · intro h1 h2 h3
    simp [getPortfolioChart, startDate, h1, h2, h3]

theorem getPortfolioChart_range_filter_witness :
    getPortfolioChart
      (some { stocks := [], cost := 0, history := [(90, 5), (93, 7)] })
      (some "1w") 100
      = List.filter (fun e => decide (100 - 7 ≤ e.1 ∧ e.1 ≤ 100))
          [((90 : ℤ), (5 : ℚ)), (93, 7)] ∧
    getPortfolioChart
      (some { stocks := [], cost := 0, history := [(90, 5), (93, 7)] })
      (some "all") 100
      = [((90 : ℤ), (5 : ℚ)), (93, 7)] := by
  have h := getPortfolioChart_range_filter
    { stocks := [], cost := 0, history := [(90, 5), (93, 7)] }
    100 "all" (by decide)
  exact ⟨h.1, h.2.2.2.1 (by decide) (by decide) (by decide)⟩

/-- Claim C10: every successful buy of symbol `s`, and every successful
sell of `s`, leaves the stored quantity of every other symbol and the
history entry of every date other than today unchanged — the operations
touch only `holdings[s]`, `cost` and `valueHistory[today]`. -/
theorem buy_sell_frame_effects (store : Option PortfolioRecord) (s : String)
    (q p : ℚ) (today : ℤ) (rec' : PortfolioRecord) :
    (buyStock store (some s) (some q) (some p) today
        = (some rec', Except.ok ()) →
      (∀ s', s' ≠ s → mget rec'.stocks s'
          = mget (store.getD emptyRecord).stocks s') ∧
      (∀ d, d ≠ today → mget rec'.history d
          = mget (store.getD emptyRecord).history d)) ∧
    (∀ rec : PortfolioRecord,
      sellStock (some rec) (some s) (some q) (some p) today
        = (some rec', Except.ok ()) →
      (∀ s', s' ≠ s → mget rec'.stocks s' = mget rec.stocks s') ∧
      (∀ d, d ≠ today → mget rec'.history d = mget rec.history d)) := by
  constructor
  · intro h
    simp only [buyStock, Option.getD_some] at h
    split at h
    · exact (err_ne_ok _ (congrArg Prod.snd h)).elim
    · split at h
      · exact (err_ne_ok _ (congrArg Prod.snd h)).elim
      · have hrec := Option.some.inj (congrArg Prod.fst h)
        refine ⟨fun s' hs' => ?_, fun d hd => ?_⟩
        · rw [← hrec]
          exact mget_minc_ne _ _ _ _ hs'
        · rw [← hrec]
          exact mget_minc_ne _ _ _ _ hd
  · intro rec h
    simp only [sellStock, Option.getD_some] at h
    split at h
    · exact (err_ne_ok _ (congrArg Prod.snd h)).elim
    · split at h
      · exact (err_ne_ok _ (congrArg Prod.snd h)).elim
      · split at h
        · split at h
          · have hrec := Option.some.inj (congrArg Prod.fst h)
            refine ⟨fun s' hs' => ?_, fun d hd => ?_⟩
            · rw [← hrec]
              exact mget_merase_ne _ _ _ hs'
            · rw [← hrec]
              exact mget_mset_ne _ _ _ _ hd
          · have hrec := Option.some.inj (congrArg Prod.fst h)
            refine ⟨fun s' hs' => ?_, fun d hd => ?_⟩
            · rw [← hrec]
              exact mget_merase_ne _ _ _ hs'
            · rw [← hrec]
              exact mget_minc_ne _ _ _ _ hd
        · have hrec := Option.some.inj (congrArg Prod.fst h)
          refine ⟨fun s' hs' => ?_, fun d hd => ?_⟩
          · rw [← hrec]
            exact mget_minc_ne _ _ _ _ hs'
          · rw [← hrec]
            exact mget_minc_ne _ _ _ _ hd

theorem buy_sell_frame_effects_witness :
    sellStock
      (some { stocks := [("AAPL", 10), ("MSFT", 2)], cost := 1500,
              history := [(0, 100)] })
      (some "AAPL") (some 5) (some 180) 1 =
      (some { stocks := [("AAPL", 5), ("MSFT", 2)], cost := 600,
              history := [(0, 100), (1, -800)] }, Except.ok ()) ∧
    mget [(("AAPL" : String), (5 : ℚ)), ("MSFT", 2)] "MSFT"
      = mget [(("AAPL" : String), (10 : ℚ)), ("MSFT", 2)] "MSFT" ∧
    mget [((0 : ℤ), (100 : ℚ)), (1, -800)] 0
      = mget [((0 : ℤ), (100 : ℚ))] 0 := by
  have heq : sellStock
      (some { stocks := [("AAPL", 10), ("MSFT", 2)], cost := 1500,
              history := [(0, 100)] })
      (some "AAPL") (some 5) (some 180) 1 =
      (some { stocks := [("AAPL", 5), ("MSFT", 2)], cost := 600,
              history := [(0, 100), (1, -800)] }, Except.ok ()) := by
    simp [sellStock, carryValue, mget, mgetD, minc, merase, msum,
          lastValue, maxKey]
    norm_num
  have h := (buy_sell_frame_effects none "AAPL" 5 180 1
    { stocks := [("AAPL", 5), ("MSFT", 2)], cost := 600,
      history := [(0, 100), (1, -800)] }).2
    { stocks := [("AAPL", 10), ("MSFT", 2)], cost := 1500,
      history := [(0, 100)] } heq
  exact ⟨heq, h.1 "MSFT" (by decide), h.2 0 (by decide)⟩
